import Mathlib

/-!
Shallow embedding of the factor-engine signal-construction and walk-forward
backtest pipeline (src/factor_engine), together with theorems settling the
frozen claims about it.

Python floats are modelled as exact rationals (`ℚ`); the two genuinely
real-valued formulas of the performance summary (the CAGR power and the
volatility square root) are modelled over `ℝ`.  Fallible Python code
(exceptions) is modelled with `Except String`.  Calendar dates are modelled by
a proleptic-Gregorian `PyDate` mirroring `datetime.date`.
-/

set_option linter.unusedVariables false

/-! ## Calendar model (`datetime.date` and the pandas month-end range) -/

/-- A calendar date, mirroring Python `datetime.date` (proleptic Gregorian). -/
structure PyDate where
  year : ℕ
  month : ℕ
  day : ℕ
deriving DecidableEq

/-- Gregorian leap-year rule. -/
def isLeap (y : ℕ) : Bool :=
  (y % 4 == 0 && y % 100 != 0) || y % 400 == 0

/-- Number of days in month `m` (1-based) of year `y`. -/
def daysInMonth (y m : ℕ) : ℕ :=
  if m = 2 then (if isLeap y then 29 else 28)
  else if m = 4 ∨ m = 6 ∨ m = 9 ∨ m = 11 then 30
  else 31

/-- Days in the months of year `y` strictly before month `m`. -/
def daysBeforeMonth (y m : ℕ) : ℕ :=
  ((List.range (m - 1)).map (fun i => daysInMonth y (i + 1))).sum

/-- Serial day number of a date, mirroring `datetime.date.toordinal`
(0001-01-01 has ordinal 1). -/
def toOrdinal (d : PyDate) : ℕ :=
  365 * (d.year - 1) + (d.year - 1) / 4 - (d.year - 1) / 100 + (d.year - 1) / 400
    + daysBeforeMonth d.year d.month + d.day

/-- Weekday of a date, mirroring `datetime.date.weekday` (Monday = 0, Sunday = 6). -/
def weekday (d : PyDate) : ℕ :=
  (toOrdinal d + 6) % 7

/-- Chronological order on dates (via ordinals). -/
def dateLe (a b : PyDate) : Bool :=
  toOrdinal a ≤ toOrdinal b

/-- The calendar day after `d`. -/
def nextDay (d : PyDate) : PyDate :=
  if d.day < daysInMonth d.year d.month then ⟨d.year, d.month, d.day + 1⟩
  else if d.month < 12 then ⟨d.year, d.month + 1, 1⟩
  else ⟨d.year + 1, 1, 1⟩

/-- Skip forward past weekend days (the `while next_day.weekday() >= 5` loop of
`schedule.next_trading_day`; a fuel of 7 always suffices since at most two
consecutive days are weekend days). -/
def skipWeekend : ℕ → PyDate → PyDate
  | 0, d => d
  | n + 1, d => if 5 ≤ weekday d then skipWeekend n (nextDay d) else d

/-- Embeds `schedule.next_trading_day`: the first non-weekend day strictly
after `day`. -/
def next_trading_day (day : PyDate) : PyDate :=
  skipWeekend 7 (nextDay day)

/-- The month of `(y, m)` advanced by `k` calendar months (months 1-based). -/
def monthAdd (y m k : ℕ) : ℕ × ℕ :=
  let t := y * 12 + (m - 1) + k
  (t / 12, t % 12 + 1)

/-- Embeds `pd.date_range(start, end, freq="M")`: the ascending list of
month-end calendar dates lying in the closed interval `[s, e]`. -/
def monthEndsBetween (s e : PyDate) : List PyDate :=
  let count := e.year * 12 + e.month + 1 - (s.year * 12 + s.month)
  ((List.range count).map (fun k =>
    let ym := monthAdd s.year s.month k
    PyDate.mk ym.1 ym.2 (daysInMonth ym.1 ym.2))).filter
    (fun d => dateLe s d && dateLe d e)

/-- Embeds truth-testing a pandas `DatetimeIndex` (the `not offsets` expression
in `schedule.month_end_dates`): `pandas.Index.__bool__` unconditionally raises
`ValueError`, whatever the contents of the index. -/
def pandasIndexBool (offsets : List PyDate) : Except String Bool :=
  Except.error ("ValueError: The truth value of a DatetimeIndex is ambiguous. Use a.empty, a.bool(), a.item(), a.any() or a.all().")

/-- Embeds `pandas.Index.drop_duplicates` (keep the first occurrence). -/
def dropDuplicatesKeepFirst : List PyDate → List PyDate
  | [] => []
  | d :: ds => d :: dropDuplicatesKeepFirst (ds.filter (fun e => e ≠ d))
termination_by xs => xs.length
decreasing_by
  exact Nat.lt_succ_of_le (List.length_filter_le _ _)

/-- Embeds `schedule.month_end_dates`.  The Python body evaluates
`if not offsets or offsets[-1].date() != end:`, whose first operand truth-tests
a pandas `DatetimeIndex` and therefore raises; the remainder of the body is
kept for fidelity but is unreachable. -/
def month_end_dates (startD endD : PyDate) : Except String (List PyDate) := do
  let offsets := monthEndsBetween startD endD
  let nonempty ← pandasIndexBool offsets
  let final :=
    if !nonempty || offsets.getLast? != some endD then
      dropDuplicatesKeepFirst (offsets ++ [endD])
    else offsets
  Except.ok final

/-! ## Configuration (`config.loader.StrategyConfig`, fields used by the core) -/

/-- The slice of `StrategyConfig` consumed by the pipeline: `factor_weights`,
the two cost entries of `execution_timing`, and the two liquidity-filter
entries used by the signal generator and portfolio builder. -/
structure StrategyConfig where
  factor_weights : List (String × ℚ)
  transaction_cost_bps : ℚ
  slippage_bps : ℚ
  median_traded_value_clp : ℚ
  max_weight_pct_of_adv : ℚ
deriving DecidableEq

/-- The `factor_weights` default of `StrategyConfig` (`config/loader.py`). -/
def defaultFactorWeights : List (String × ℚ) :=
  [("momentum_12_1", 0.4), ("momentum_6_1", 0.4), ("realized_vol", -0.2)]

/-- The full default `StrategyConfig` as built by its pydantic field defaults. -/
def defaultStrategyConfig : StrategyConfig :=
  { factor_weights := defaultFactorWeights
    transaction_cost_bps := 20
    slippage_bps := 5
    median_traded_value_clp := 20000000
    max_weight_pct_of_adv := 5 }

/-! ## Factor engine (`factors/engine.py`) -/

/-- Mirrors `factors.engine.FactorDefinition`. -/
structure FactorDefinition where
  name : String
  lookback_days : ℕ
  method : String
deriving DecidableEq

/-- The default factor set installed by `FactorEngine.__init__`. -/
def factorDefinitions : List FactorDefinition :=
  [ ⟨"momentum_12_1", 252, "momentum"⟩
  , ⟨"momentum_6_1", 126, "momentum"⟩
  , ⟨"realized_vol", 126, "volatility"⟩
  , ⟨"max_drawdown", 252, "max_drawdown"⟩ ]

/-- Python list indexing (also `DataFrame.iloc` row access) with support for
negative indices; out-of-range indices raise `IndexError`. -/
def pyIdx (xs : List ℚ) (i : ℤ) : Except String ℚ :=
  let n : ℤ := xs.length
  let j := if i < 0 then i + n else i
  if h : 0 ≤ j ∧ j < n then
    Except.ok (xs.get ⟨j.toNat, by omega⟩)
  else Except.error ("IndexError: single positional indexer is out-of-bounds")

/-- Embeds `FactorEngine._momentum` on the ascending `adj_close` column of the
price window: `None` when the window has fewer than `lookback` rows, else
`df.iloc[-1] / df.iloc[-lookback] - 1`. -/
def momentum (prices : List ℚ) (lookback : ℕ) : Except String (Option ℚ) :=
  if prices.length < lookback then Except.ok none
  else do
    let startPrice ← pyIdx prices (-(lookback : ℤ))
    let endPrice ← pyIdx prices (-1)
    Except.ok (some (endPrice / startPrice - 1))

/-! ## Signal generator (`signals/generator.py`) -/

/-- Mirrors `signals.generator.Signal`. -/
structure Signal where
  ticker : String
  score : ℚ
  liquidity : ℚ
deriving DecidableEq

/-- Mirrors the persisted `db.models.SignalRecord` row (columns used by the
generator). -/
structure SignalRecord where
  run_id : String
  symbol_id : ℕ
  as_of_date : PyDate
  score : ℚ
  liquidity : ℚ
deriving DecidableEq

/-- Mirrors a `db.models.Symbol` row (columns used by the generator). -/
structure SymbolRow where
  id : ℕ
  ticker : String
deriving DecidableEq

/-- Mirrors `runs.context.RunContext` (fields read by the generator). -/
structure RunContext where
  run_id : String
  as_of_date : PyDate
deriving DecidableEq

/-- The read-only database surface consulted by `SignalGenerator`:
`get_active_symbols`, `_latest_liquidity`, `_get_factor`, the
`Symbol` join giving a ticker for a symbol id, and the `Symbol` lookup giving
an id for a ticker.  `build_signals` never writes to these tables, so they are
modelled as functions. -/
structure SigEnv where
  activeSymbols : PyDate → List SymbolRow
  latestLiquidity : ℕ → Option ℚ
  getFactor : ℕ → String → Option ℚ
  tickerOf : ℕ → String
  idOf : String → ℕ

/-- Embeds `SignalGenerator._passes_liquidity`. -/
def passes_liquidity (cfg : StrategyConfig) : Option ℚ → Bool
  | none => false
  | some v => cfg.median_traded_value_clp ≤ v

/-- Association-list lookup, mirroring `dict.get(name, 0.0)` lookups. -/
def lookupFactor (factors : List (String × ℚ)) (name : String) : Option ℚ :=
  (factors.find? (fun p => p.1 == name)).map Prod.snd

/-- Embeds `SignalGenerator._compose_score`: the weighted sum of factor values
over the configured `factor_weights`. -/
def compose_score (cfg : StrategyConfig) (factors : List (String × ℚ)) : ℚ :=
  (cfg.factor_weights.map (fun p => p.2 * (lookupFactor factors p.1).getD 0)).sum

/-- The inner factor-collection loop of `build_signals`: fetch a value for
every configured factor name; any missing value aborts the symbol. -/
def collectFactors (env : SigEnv) (symId : ℕ) : List (String × ℚ) → Option (List (String × ℚ))
  | [] => some []
  | (name, _w) :: rest =>
    match env.getFactor symId name with
    | none => none
    | some v => (collectFactors env symId rest).map (fun fs => (name, v) :: fs)

/-- The per-symbol loop of `build_signals` on a cache miss, carrying the
`seen_symbols` set. -/
def computeSignalsGo (cfg : StrategyConfig) (env : SigEnv) :
    List SymbolRow → List ℕ → List Signal
  | [], _ => []
  | sym :: rest, seen =>
    if sym.id ∈ seen then computeSignalsGo cfg env rest seen
    else
      let seen2 := sym.id :: seen
      let liq := env.latestLiquidity sym.id
      if ! passes_liquidity cfg liq then computeSignalsGo cfg env rest seen2
      else
        match collectFactors env sym.id cfg.factor_weights with
        | none => computeSignalsGo cfg env rest seen2
        | some factorValues =>
          { ticker := sym.ticker
            score := compose_score cfg factorValues
            liquidity := liq.getD 0 } :: computeSignalsGo cfg env rest seen2

/-- The cache-miss computation of `build_signals` over the active universe at
the run context date. -/
def computeSignals (cfg : StrategyConfig) (env : SigEnv) (runAsOf : PyDate) : List Signal :=
  computeSignalsGo cfg env (env.activeSymbols runAsOf) []

/-- Embeds `SignalGenerator._persist_signals`: append one `SignalRecord` per
signal, dated with the run context date. -/
def persist_signals (env : SigEnv) (run : RunContext) (signals : List Signal)
    (store : List SignalRecord) : List SignalRecord :=
  store ++ signals.map (fun s =>
    { run_id := run.run_id
      symbol_id := env.idOf s.ticker
      as_of_date := run.as_of_date
      score := s.score
      liquidity := s.liquidity })

/-- One step of a stable insertion sort placing higher scores first; an
earlier element is kept ahead of later elements with an equal score, matching
the stability of Python `list.sort(key=..., reverse=True)`. -/
def insertByScoreDesc (s : Signal) : List Signal → List Signal
  | [] => [s]
  | t :: ts => if t.score ≤ s.score then s :: t :: ts else t :: insertByScoreDesc s ts

/-- Embeds `signals.sort(key=lambda s: s.score, reverse=True)`. -/
def sortByScoreDesc (xs : List Signal) : List Signal :=
  xs.foldr insertByScoreDesc []

/-- The `(run_id, as_of_date)` cache-key filter of `build_signals`. -/
def matchesKey (run : RunContext) (asOf : PyDate) (r : SignalRecord) : Bool :=
  r.run_id == run.run_id && r.as_of_date == asOf

/-- The `Signal` recovered from a cached record via the `Symbol` join. -/
def recordSignal (env : SigEnv) (r : SignalRecord) : Signal :=
  { ticker := env.tickerOf r.symbol_id, score := r.score, liquidity := r.liquidity }

/-- Embeds `SignalGenerator.build_signals`: return cached signals for
`(run_id, as_of)` when any exist, otherwise compute signals over the active
universe, persist them, and return them; either branch returns the signals in
descending-score order.  The result pairs the returned signals with the
signal store after the call. -/
def build_signals (cfg : StrategyConfig) (env : SigEnv) (run : RunContext) (asOf : PyDate)
    (store : List SignalRecord) : List Signal × List SignalRecord :=
  let existing := store.filter (matchesKey run asOf)
  if existing.isEmpty then
    let signals := computeSignals cfg env run.as_of_date
    (sortByScoreDesc signals, persist_signals env run signals store)
  else
    (sortByScoreDesc (existing.map (recordSignal env)), store)

/-! ## Portfolio builder (`portfolio/builder.py`) -/

/-- Mirrors `portfolio.builder.PortfolioPosition`. -/
structure PortfolioPosition where
  ticker : String
  weight : ℚ
  liquidity_share : ℚ
deriving DecidableEq

/-- Embeds `PortfolioBuilder._liquidity_cap`. -/
def liquidity_cap (cfg : StrategyConfig) (signal : Signal) : ℚ :=
  let thresholdPct := cfg.max_weight_pct_of_adv / 100
  if signal.liquidity ≤ 0 then 0 else thresholdPct

/-- The position list formed by the main loop of `PortfolioBuilder.build`,
before the renormalization step: each selected signal gets the minimum of its
provisional (score-proportional or equal) weight and its liquidity cap. -/
def cappedPositions (cfg : StrategyConfig) (selected : List Signal) : List PortfolioPosition :=
  let totalScore := (selected.map Signal.score).sum
  selected.map (fun signal =>
    let weight := if totalScore = 0 then 1 / (selected.length : ℚ) else signal.score / totalScore
    let cap := liquidity_cap cfg signal
    { ticker := signal.ticker, weight := min weight cap, liquidity_share := cap })

/-- Embeds `PortfolioBuilder.build` (callers use `top_n = 15` by default):
select the `topN` leading signals, weight and cap them, then divide every
weight by the positive total of capped weights (skipping that renormalization
when the total is not positive). -/
def build (cfg : StrategyConfig) (signals : List Signal) (topN : ℕ) : List PortfolioPosition :=
  let selected := signals.take topN
  if selected.isEmpty then []
  else
    let positions := cappedPositions cfg selected
    let total := (positions.map PortfolioPosition.weight).sum
    if 0 < total then positions.map (fun p => { p with weight := p.weight / total })
    else positions

/-! ## Execution model and backtest runner (`backtest/execution.py`, `backtest/runner.py`) -/

/-- Embeds `ExecutionModel.apply_costs`. -/
def apply_costs (cfg : StrategyConfig) (gross_return : ℚ) : ℚ :=
  gross_return - (cfg.transaction_cost_bps + cfg.slippage_bps) / 10000

/-- The price queries of `BacktestRunner._portfolio_return`: membership in the
`Symbol` table, `_price_on_or_after`, and `_price_on_or_before`; the runner
only reads them, so they are modelled as functions. -/
structure PriceEnv where
  symbolExists : String → Bool
  priceOnOrAfter : String → PyDate → Option ℚ
  priceOnOrBefore : String → PyDate → Option ℚ

/-- The per-position accumulation step of `_portfolio_return`: a position with
a missing symbol, entry price, or exit price is skipped; otherwise its
weighted gross return and its weight accumulate. -/
def positionStep (env : PriceEnv) (tradeDate exitDate : PyDate) (acc : ℚ × ℚ)
    (position : PortfolioPosition) : ℚ × ℚ :=
  if ! env.symbolExists position.ticker then acc
  else
    match env.priceOnOrAfter position.ticker tradeDate,
          env.priceOnOrBefore position.ticker exitDate with
    | some entryPrice, some exitPrice =>
      (acc.1 + position.weight * (exitPrice / entryPrice - 1), acc.2 + position.weight)
    | _, _ => acc

/-- The `(total, effective_weight)` pair accumulated by `_portfolio_return`
(`total` is the aggregate gross return later handed to the execution model). -/
def grossAndWeight (env : PriceEnv) (positions : List PortfolioPosition)
    (tradeDate exitDate : PyDate) : ℚ × ℚ :=
  positions.foldl (positionStep env tradeDate exitDate) (0, 0)

/-- Embeds `BacktestRunner._portfolio_return`: zero when the effective weight
is zero, otherwise the aggregate gross return with execution costs applied. -/
def portfolio_return (cfg : StrategyConfig) (env : PriceEnv)
    (positions : List PortfolioPosition) (tradeDate exitDate : PyDate) : ℚ :=
  let tw := grossAndWeight env positions tradeDate exitDate
  if tw.2 = 0 then 0 else apply_costs cfg tw.1

/-- One iteration of the rebalance loop of `run_backtest` over the period
`(rebalance_date, next_rebalance)`, threading `(equity_points, capital)`.
`portfolioFor` abstracts `build_signals` followed by `PortfolioBuilder.build`
at the rebalance date. -/
def backtestStep (cfg : StrategyConfig) (portfolioFor : PyDate → List PortfolioPosition)
    (env : PriceEnv) (state : List (PyDate × ℚ) × ℚ) (period : PyDate × PyDate) :
    List (PyDate × ℚ) × ℚ :=
  let portfolio := portfolioFor period.1
  if portfolio.isEmpty then (state.1 ++ [(period.2, state.2)], state.2)
  else
    let periodReturn := portfolio_return cfg env portfolio (next_trading_day period.1) period.2
    let capital := state.2 * (1 + periodReturn)
    (state.1 ++ [(period.2, capital)], capital)

/-- The adjacent schedule pairs `(schedule[idx], schedule[idx+1])` iterated by
`run_backtest`. -/
def adjacentPairs : List PyDate → List (PyDate × PyDate)
  | a :: b :: rest => (a, b) :: adjacentPairs (b :: rest)
  | _ => []

/-- The rebalance loop of `run_backtest` over a given schedule, starting from
`[(start_date, 1.0)]` with unit capital; yields the equity-point list. -/
def backtestLoop (cfg : StrategyConfig) (portfolioFor : PyDate → List PortfolioPosition)
    (env : PriceEnv) (schedule : List PyDate) (startDate : PyDate) : List (PyDate × ℚ) :=
  ((adjacentPairs schedule).foldl (backtestStep cfg portfolioFor env) ([(startDate, 1)], 1)).1

/-- Embeds `BacktestRunner.run_backtest` up to the equity curve it produces:
build the month-end schedule, reject schedules of fewer than two dates, then
run the rebalance loop. -/
def run_backtest (cfg : StrategyConfig) (portfolioFor : PyDate → List PortfolioPosition)
    (env : PriceEnv) (startDate endDate : PyDate) : Except String (List (PyDate × ℚ)) := do
  let schedule ← month_end_dates startDate endDate
  if schedule.length < 2 then
    Except.error ("ValueError: Backtest requires at least two month-end dates")
  else
    Except.ok (backtestLoop cfg portfolioFor env schedule startDate)

/-! ## Performance summary (`backtest/performance.py`) -/

/-- Mirrors `performance.PerformanceSummary`; the CAGR and volatility involve
a real power and a square root, so those fields live in `ℝ`. -/
structure PerformanceSummary where
  cagr : ℝ
  volatility : ℝ
  max_drawdown : ℝ
  periods : ℕ

/-- Embeds `np.diff(equity_curve) / equity_curve[:-1]`. -/
def pctChanges : List ℚ → List ℚ
  | a :: b :: rest => (b - a) / a :: pctChanges (b :: rest)
  | _ => []

/-- Embeds `np.maximum.accumulate` seeded with a running maximum. -/
def cummaxFrom (m : ℚ) : List ℚ → List ℚ
  | [] => []
  | x :: xs => max m x :: cummaxFrom (max m x) xs

/-- Minimum of a list (`np.min`; the reached call sites are nonempty). -/
def listMin : List ℚ → ℚ
  | [] => 0
  | x :: xs => xs.foldl min x

/-- Embeds `numpy.ndarray.std` (population standard deviation). -/
noncomputable def npStd (xs : List ℚ) : ℝ :=
  let n : ℚ := xs.length
  let mean := xs.sum / n
  Real.sqrt ((((xs.map (fun x => (x - mean) ^ 2)).sum / n : ℚ) : ℝ))

/-- Embeds `performance.compute_summary` (callers use `periods_per_year = 12`):
an empty curve short-circuits to the all-zero summary; otherwise CAGR,
annualized volatility, and maximum drawdown are computed over the curve, and
`periods` is the point count of the curve. -/
noncomputable def compute_summary (equityCurve : List ℚ) (periodsPerYear : ℕ) :
    PerformanceSummary :=
  match equityCurve with
  | [] => ⟨0, 0, 0, 0⟩
  | e0 :: rest =>
    let curve := e0 :: rest
    let returns := pctChanges curve
    let compounded := List.getLastD rest e0 / e0
    let years : ℚ := (max (curve.length - 1) 1 : ℕ) / (periodsPerYear : ℚ)
    let cagr : ℝ :=
      if 0 < compounded then Real.rpow ((compounded : ℝ)) (((years : ℝ))⁻¹) - 1 else 0
    let volatility : ℝ :=
      if 0 < returns.length then npStd returns * Real.sqrt ((periodsPerYear : ℝ)) else 0
    let runningMax := cummaxFrom e0 curve
    let drawdowns := List.zipWith (fun e m => e / m - 1) curve runningMax
    ⟨cagr, volatility, ((listMin drawdowns : ℚ) : ℝ), curve.length⟩

/-! ## Concrete instances used by witnesses and counterexamples -/

/-- Closed form of the rebalance loop under a constant per-period growth
factor `f`: the equity points appended after the start point. -/
def geomTrail (f : ℚ) : ℚ → List (PyDate × PyDate) → List (PyDate × ℚ)
  | _, [] => []
  | cap, pr :: rest => (pr.2, cap * f) :: geomTrail f (cap * f) rest

/-- Two signals with ample liquidity, scores 3 and 1. -/
def twoSignals : List Signal :=
  [⟨"A", 3, 1000000000⟩, ⟨"B", 1, 1000000000⟩]

/-- Prices: every entry price is 100; ticker `A` exits at 200, all others flat
at 100. -/
def doublingPriceEnv : PriceEnv :=
  { symbolExists := fun _ => true
    priceOnOrAfter := fun _ _ => some 100
    priceOnOrBefore := fun t _ => if t == "A" then some 200 else some 100 }

/-- A flat price series: every observed price equals 100. -/
def flatPriceEnv : PriceEnv :=
  { symbolExists := fun _ => true
    priceOnOrAfter := fun _ _ => some 100
    priceOnOrBefore := fun _ _ => some 100 }

/-- A price environment in which every on-or-after price query misses. -/
def noEntryPriceEnv : PriceEnv :=
  { symbolExists := fun _ => true
    priceOnOrAfter := fun _ _ => none
    priceOnOrBefore := fun _ _ => some 100 }

/-- The default strategy configuration with both cost settings at zero. -/
def zeroCostConfig : StrategyConfig :=
  { defaultStrategyConfig with transaction_cost_bps := 0, slippage_bps := 0 }

/-- A one-position full-weight portfolio, built at every rebalance date. -/
def singleStockPortfolio : PyDate → List PortfolioPosition :=
  fun _ => [⟨"A", 1, 1 / 20⟩]

/-- A signal-generator database surface with a single active symbol whose
liquidity and factor values pass every filter. -/
def oneSymbolSigEnv : SigEnv :=
  { activeSymbols := fun _ => [⟨7, "AAA"⟩]
    latestLiquidity := fun _ => some 30000000
    getFactor := fun _ _ => some 1
    tickerOf := fun _ => "AAA"
    idOf := fun _ => 7 }

/-- A run context for the one-symbol signal environment. -/
def sampleRun : RunContext :=
  { run_id := "run-1", as_of_date := ⟨2024, 12, 31⟩ }

/-! ## Helper lemmas -/

theorem positionStep_contributing (env : PriceEnv) (tradeDate exitDate : PyDate)
    (acc : ℚ × ℚ) (p : PortfolioPosition) (entry exit : ℚ)
    (hs : env.symbolExists p.ticker = true)
    (ha : env.priceOnOrAfter p.ticker tradeDate = some entry)
    (hb : env.priceOnOrBefore p.ticker exitDate = some exit) :
    positionStep env tradeDate exitDate acc p
      = (acc.1 + p.weight * (exit / entry - 1), acc.2 + p.weight) := by
  simp [positionStep, hs, ha, hb]

theorem positionStep_skipped (env : PriceEnv) (tradeDate exitDate : PyDate)
    (acc : ℚ × ℚ) (p : PortfolioPosition)
    (h : env.priceOnOrAfter p.ticker tradeDate = none ∨
      env.priceOnOrBefore p.ticker exitDate = none) :
    positionStep env tradeDate exitDate acc p = acc := by
  unfold positionStep
  cases hse : env.symbolExists p.ticker
  · simp
  · rcases h with h | h
    · rw [h]
      cases env.priceOnOrBefore p.ticker exitDate <;> simp
    · rw [h]
      cases env.priceOnOrAfter p.ticker tradeDate <;> simp

theorem foldl_positionStep_contributing (env : PriceEnv) (tradeDate exitDate : PyDate)
    (entryP exitP : String → ℚ) :
    ∀ (ps : List PortfolioPosition) (acc : ℚ × ℚ),
      (∀ p ∈ ps, env.symbolExists p.ticker = true ∧
        env.priceOnOrAfter p.ticker tradeDate = some (entryP p.ticker) ∧
        env.priceOnOrBefore p.ticker exitDate = some (exitP p.ticker)) →
      ps.foldl (positionStep env tradeDate exitDate) acc
        = (acc.1 + (ps.map (fun p =>
              p.weight * (exitP p.ticker / entryP p.ticker - 1))).sum,
           acc.2 + (ps.map PortfolioPosition.weight).sum)
  | [], acc, _ => by simp
  | p :: ps, acc, h => by
    have hp := h p (List.mem_cons_self p ps)
    have hrest : ∀ q ∈ ps, env.symbolExists q.ticker = true ∧
        env.priceOnOrAfter q.ticker tradeDate = some (entryP q.ticker) ∧
        env.priceOnOrBefore q.ticker exitDate = some (exitP q.ticker) :=
      fun q hq => h q (List.mem_cons_of_mem p hq)
    rw [List.foldl_cons,
      positionStep_contributing env tradeDate exitDate acc p _ _ hp.1 hp.2.1 hp.2.2,
      foldl_positionStep_contributing env tradeDate exitDate entryP exitP ps _ hrest]
    simp
    constructor <;> ring

theorem grossAndWeight_contributing (env : PriceEnv) (tradeDate exitDate : PyDate)
    (entryP exitP : String → ℚ) (ps : List PortfolioPosition)
    (h : ∀ p ∈ ps, env.symbolExists p.ticker = true ∧
      env.priceOnOrAfter p.ticker tradeDate = some (entryP p.ticker) ∧
      env.priceOnOrBefore p.ticker exitDate = some (exitP p.ticker)) :
    grossAndWeight env ps tradeDate exitDate
      = ((ps.map (fun p => p.weight * (exitP p.ticker / entryP p.ticker - 1))).sum,
         (ps.map PortfolioPosition.weight).sum) := by
  unfold grossAndWeight
  rw [foldl_positionStep_contributing env tradeDate exitDate entryP exitP ps (0, 0) h]
  simp

theorem foldl_positionStep_skipped (env : PriceEnv) (tradeDate exitDate : PyDate) :
    ∀ (ps : List PortfolioPosition) (acc : ℚ × ℚ),
      (∀ p ∈ ps, env.priceOnOrAfter p.ticker tradeDate = none ∨
        env.priceOnOrBefore p.ticker exitDate = none) →
      ps.foldl (positionStep env tradeDate exitDate) acc = acc
  | [], acc, _ => rfl
  | p :: ps, acc, h => by
    rw [List.foldl_cons,
      positionStep_skipped env tradeDate exitDate acc p (h p (List.mem_cons_self p ps)),
      foldl_positionStep_skipped env tradeDate exitDate ps acc
        (fun q hq => h q (List.mem_cons_of_mem p hq))]

/-! ## Claim theorems -/

/-- C3: the claim states that for start ≤ end, `month_end_dates` returns the
ascending month-end list (with the literal end appended when needed) rather
than raising.  The code instead always raises: its guard truth-tests a pandas
`DatetimeIndex`, which raises `ValueError` unconditionally.  Evaluating the
embedded code at the concrete input (2024-01-01, 2024-03-15) — whose intended
result would be [2024-01-31, 2024-02-29, 2024-03-15] — yields that error. -/
theorem c3_month_end_dates_raises :
    month_end_dates ⟨2024, 1, 1⟩ ⟨2024, 3, 15⟩
      = Except.error ("ValueError: The truth value of a DatetimeIndex is ambiguous. Use a.empty, a.bool(), a.item(), a.any() or a.all().") := rfl

/-- C9: the claim states that `run_backtest` raises the configuration error
exactly when the month-end schedule has fewer than two dates, and raises no
error otherwise.  In the code the schedule call itself raises before the
two-date guard is ever reached, for every input: here, for the well-formed
range (2024-10-31, 2024-12-31), whose schedule would have three dates, every
backtest run fails with the pandas truth-value `ValueError` instead of
running without error (the repository's own pipeline test expects this very
call to succeed). -/
theorem c9_run_backtest_always_raises (cfg : StrategyConfig)
    (portfolioFor : PyDate → List PortfolioPosition) (env : PriceEnv) :
    run_backtest cfg portfolioFor env ⟨2024, 10, 31⟩ ⟨2024, 12, 31⟩
      = Except.error ("ValueError: The truth value of a DatetimeIndex is ambiguous. Use a.empty, a.bool(), a.item(), a.any() or a.all().") := rfl

/-- C7 counterexample: the default factor set and the default
`factor_weights` keys are not equal as sets — `max_drawdown` is a default
factor name but has no default weight. -/
theorem c7_counterexample :
    "max_drawdown" ∈ factorDefinitions.map FactorDefinition.name ∧
      "max_drawdown" ∉ defaultFactorWeights.map Prod.fst := by
  decide

/-- C7 amended: the default factor set is exactly momentum_12_1 (252-day),
momentum_6_1 (126-day), realized_vol (126-day) and max_drawdown, and the
default `factor_weights` keys are exactly momentum_12_1, momentum_6_1 and
realized_vol — a strict subset of the factor names, missing max_drawdown. -/
theorem c7_amended :
    factorDefinitions.map FactorDefinition.name
        = ["momentum_12_1", "momentum_6_1", "realized_vol", "max_drawdown"] ∧
      factorDefinitions.map FactorDefinition.lookback_days = [252, 126, 126, 252] ∧
      defaultFactorWeights.map Prod.fst
        = ["momentum_12_1", "momentum_6_1", "realized_vol"] ∧
      (∀ k ∈ defaultFactorWeights.map Prod.fst,
        k ∈ factorDefinitions.map FactorDefinition.name) := by
  decide

/-- C10: when a rebalance period's portfolio is non-empty but every position
is dropped for a missing entry or exit price, the period return is exactly 0
(costs are not subtracted) and the capital carries forward unchanged. -/
theorem c10_all_positions_dropped (cfg : StrategyConfig) (env : PriceEnv)
    (portfolioFor : PyDate → List PortfolioPosition) (reb nxt : PyDate)
    (points : List (PyDate × ℚ)) (capital : ℚ)
    (hne : portfolioFor reb ≠ [])
    (hmiss : ∀ p ∈ portfolioFor reb,
      env.priceOnOrAfter p.ticker (next_trading_day reb) = none ∨
        env.priceOnOrBefore p.ticker nxt = none) :
    portfolio_return cfg env (portfolioFor reb) (next_trading_day reb) nxt = 0 ∧
      backtestStep cfg portfolioFor env (points, capital) (reb, nxt)
        = (points ++ [(nxt, capital)], capital) := by
  have hgw : grossAndWeight env (portfolioFor reb) (next_trading_day reb) nxt = (0, 0) :=
    foldl_positionStep_skipped env (next_trading_day reb) nxt (portfolioFor reb) (0, 0) hmiss
  have hpr : portfolio_return cfg env (portfolioFor reb) (next_trading_day reb) nxt = 0 := by
    unfold portfolio_return
    rw [hgw]
    simp
  refine ⟨hpr, ?_⟩
  unfold backtestStep
  have hne2 : (portfolioFor reb).isEmpty = false := by
    cases hc : (portfolioFor reb).isEmpty
    · rfl
    · exact absurd (List.isEmpty_iff.mp hc) hne
  simp only [hne2, Bool.false_eq_true, if_false, hpr]
  norm_num

/-- C10 witness: a single-position portfolio whose entry-price query misses
carries unit capital through the period unchanged. -/
theorem c10_witness :
    portfolio_return defaultStrategyConfig noEntryPriceEnv
        (singleStockPortfolio ⟨2024, 10, 31⟩)
        (next_trading_day ⟨2024, 10, 31⟩) ⟨2024, 11, 30⟩ = 0 ∧
      backtestStep defaultStrategyConfig singleStockPortfolio noEntryPriceEnv
          ([(⟨2024, 10, 31⟩, 1)], 1) (⟨2024, 10, 31⟩, ⟨2024, 11, 30⟩)
        = ([(⟨2024, 10, 31⟩, 1), (⟨2024, 11, 30⟩, 1)], 1) :=
  c10_all_positions_dropped defaultStrategyConfig noEntryPriceEnv singleStockPortfolio
    ⟨2024, 10, 31⟩ ⟨2024, 11, 30⟩ [(⟨2024, 10, 31⟩, 1)] 1 (by decide) (by decide)

theorem getD_eq_get (xs : List ℚ) (n : ℕ) (h : n < xs.length) :
    xs.getD n 0 = xs.get ⟨n, h⟩ := by
  rw [List.getD_eq_getElem?_getD, List.getElem?_eq_getElem h]
  rfl

theorem pyIdx_neg (xs : List ℚ) (i : ℕ) (h1 : 1 ≤ i) (h2 : i ≤ xs.length) :
    pyIdx xs (-(i : ℤ)) = Except.ok (xs.getD (xs.length - i) 0) := by
  have hneg : (-(i : ℤ)) < 0 := by omega
  have hcond : 0 ≤ -(i : ℤ) + (xs.length : ℤ) ∧ -(i : ℤ) + (xs.length : ℤ) < (xs.length : ℤ) := by
    omega
  have hlt : xs.length - i < xs.length := by omega
  simp only [pyIdx, hneg, if_true]
  rw [dif_pos hcond, getD_eq_get xs (xs.length - i) hlt]
  congr 1
  congr 1
  apply Fin.ext
  show ((-(i : ℤ) + (xs.length : ℤ)).toNat) = xs.length - i
  omega

/-- C8: for every price window and every positive lookback, the momentum
factor emits no value exactly when the window has fewer than `lookback`
observations, and with at least `lookback` observations it returns
last price divided by the price `lookback` observations back, minus 1. -/
theorem c8_momentum (prices : List ℚ) (lookback : ℕ) (hlb : 1 ≤ lookback) :
    (momentum prices lookback = Except.ok none ↔ prices.length < lookback) ∧
      (lookback ≤ prices.length →
        momentum prices lookback
          = Except.ok (some (prices.getD (prices.length - 1) 0
              / prices.getD (prices.length - lookback) 0 - 1))) := by
  by_cases h : prices.length < lookback
  · exact ⟨by simp [momentum, h], fun h2 => absurd h2 (by omega)⟩
  · push_neg at h
    have hlen : 1 ≤ prices.length := le_trans hlb h
    have hval : momentum prices lookback
        = Except.ok (some (prices.getD (prices.length - 1) 0
            / prices.getD (prices.length - lookback) 0 - 1)) := by
      have hone : pyIdx prices (-(1 : ℤ)) = Except.ok (prices.getD (prices.length - 1) 0) := by
        have := pyIdx_neg prices 1 le_rfl hlen
        simpa using this
      simp only [momentum, Nat.not_lt.mpr h, if_false]
      rw [pyIdx_neg prices lookback hlb h]
      rw [show ((-1 : ℤ)) = (-(1 : ℤ)) from rfl, hone]
      rfl
    refine ⟨?_, fun _ => hval⟩
    rw [hval]
    constructor
    · intro hc
      exact absurd hc (by simp)
    · intro hc
      omega

/-- C8 witness: a two-observation window with lookback 2 yields momentum
110/100 - 1. -/
theorem c8_witness :
    (momentum [100, 110] 2 = Except.ok none ↔ ([100, 110] : List ℚ).length < 2) ∧
      (2 ≤ ([100, 110] : List ℚ).length →
        momentum [100, 110] 2
          = Except.ok (some (([100, 110] : List ℚ).getD (([100, 110] : List ℚ).length - 1) 0
              / ([100, 110] : List ℚ).getD (([100, 110] : List ℚ).length - 2) 0 - 1))) :=
  c8_momentum [100, 110] 2 (by decide)

/-- C4 counterexample: the claim says a one-point equity curve yields
`periods = 0`; the code returns `periods = len(equity_curve) = 1` for the
curve `[1.0]`. -/
theorem c4_counterexample : (compute_summary [1] 12).periods ≠ 0 := by
  simp [compute_summary]

/-- C4 amended: an empty curve yields the all-zero summary with `periods = 0`;
a one-point curve (at a nonzero equity value) yields cagr 0, volatility 0,
max drawdown 0 and `periods = 1`. -/
theorem c4_zero_and_one_point (x : ℚ) (hx : x ≠ 0) :
    compute_summary [] 12 = ⟨0, 0, 0, 0⟩ ∧ compute_summary [x] 12 = ⟨0, 0, 0, 1⟩ := by
  have hdiv : x / x = 1 := div_self hx
  refine ⟨rfl, ?_⟩
  simp only [compute_summary, pctChanges, cummaxFrom, listMin, List.getLastD, max_self,
    List.zipWith, List.length_nil, List.length_cons, List.foldl, hdiv,
    PerformanceSummary.mk.injEq]
  norm_num [Real.one_rpow]

/-- C4 witness: the amended statement evaluated at the one-point curve
`[1.0]`. -/
theorem c4_witness :
    compute_summary [] 12 = ⟨0, 0, 0, 0⟩ ∧ compute_summary [(1 : ℚ)] 12 = ⟨0, 0, 0, 1⟩ :=
  c4_zero_and_one_point 1 (by norm_num)


/-- C2 counterexample: a single illiquid signal (liquidity 0) produces a
non-empty portfolio whose weights sum to 0, not 1: its only weight is capped
to 0, so the capped total is 0 and the renormalization step is skipped. -/
theorem c2_counterexample :
    build defaultStrategyConfig [⟨"A", 1, 0⟩] 15 ≠ [] ∧
      ((build defaultStrategyConfig [⟨"A", 1, 0⟩] 15).map PortfolioPosition.weight).sum
        = 0 := by
  have hb : build defaultStrategyConfig [⟨"A", 1, 0⟩] 15 = [⟨"A", 0, 0⟩] := by
    norm_num [build, cappedPositions, liquidity_cap, defaultStrategyConfig,
      List.take_of_length_le, min_def]
  rw [hb]
  norm_num

/-- C2 amended: for every non-empty signal list and `topN ≥ 1`, the built
portfolio is non-empty, and whenever the sum of capped weights is positive
(so the renormalization step runs) the final weights sum to exactly 1. -/
theorem c2_amended (cfg : StrategyConfig) (signals : List Signal) (topN : ℕ)
    (hne : signals ≠ []) (htop : 1 ≤ topN) :
    build cfg signals topN ≠ [] ∧
      (0 < ((cappedPositions cfg (signals.take topN)).map PortfolioPosition.weight).sum →
        ((build cfg signals topN).map PortfolioPosition.weight).sum = 1) := by
  have hsel : signals.take topN ≠ [] := by
    rw [Ne, List.take_eq_nil_iff]
    push_neg
    exact ⟨by omega, hne⟩
  have hselEmpty : (signals.take topN).isEmpty = false := by
    cases hc : (signals.take topN).isEmpty
    · rfl
    · exact absurd (List.isEmpty_iff.mp hc) hsel
  constructor
  · unfold build
    simp only [hselEmpty, Bool.false_eq_true, if_false]
    split <;> simpa [cappedPositions] using hsel
  · intro hpos
    have htotne : ((cappedPositions cfg (signals.take topN)).map PortfolioPosition.weight).sum
        ≠ 0 := ne_of_gt hpos
    unfold build
    simp only [hselEmpty, Bool.false_eq_true, if_false, if_pos hpos]
    rw [List.map_map]
    have hmap : (PortfolioPosition.weight ∘ fun p =>
        { p with weight :=
            p.weight / ((cappedPositions cfg (signals.take topN)).map PortfolioPosition.weight).sum })
        = fun p : PortfolioPosition =>
            p.weight * (((cappedPositions cfg (signals.take topN)).map PortfolioPosition.weight).sum)⁻¹ := by
      funext p
      simp [div_eq_mul_inv]
    rw [hmap, List.sum_map_mul_right]
    exact mul_inv_cancel₀ htotne

/-- C2 witness: two liquid signals with scores 3 and 1 give a non-empty
portfolio with weights summing to exactly 1. -/
theorem c2_witness :
    build defaultStrategyConfig twoSignals 15 ≠ [] ∧
      ((build defaultStrategyConfig twoSignals 15).map PortfolioPosition.weight).sum = 1 :=
  ⟨(c2_amended defaultStrategyConfig twoSignals 15 (by simp [twoSignals]) (by norm_num)).1,
    (c2_amended defaultStrategyConfig twoSignals 15 (by simp [twoSignals]) (by norm_num)).2
      (by norm_num [cappedPositions, liquidity_cap, defaultStrategyConfig, twoSignals,
        List.take_of_length_le, min_def])⟩

/-- C1 counterexample: with two equally liquid signals of scores 3 and 1
under the default 5% liquidity cap, both capped weights are 1/20 and the
builder renormalizes them to 1/2 each; over a period where ticker A doubles
and ticker B is flat, the aggregate gross return accumulated by the runner is
1/2, not the 1/20 that the original (pre-renormalization) weights would give:
the claim's equation fails. -/
theorem c1_counterexample :
    (grossAndWeight doublingPriceEnv (build defaultStrategyConfig twoSignals 15)
        ⟨2024, 11, 1⟩ ⟨2024, 11, 30⟩).1
      ≠ ((cappedPositions defaultStrategyConfig (twoSignals.take 15)).map (fun p =>
          p.weight * ((doublingPriceEnv.priceOnOrBefore p.ticker ⟨2024, 11, 30⟩).getD 0
            / (doublingPriceEnv.priceOnOrAfter p.ticker ⟨2024, 11, 1⟩).getD 0 - 1))).sum := by
  have hB : (if ("B" : String) = "A" then some (200 : ℚ) else some 100) = some 100 := by
    simp
  norm_num [hB, grossAndWeight, positionStep, build, cappedPositions, liquidity_cap,
    defaultStrategyConfig, twoSignals, doublingPriceEnv, List.take_of_length_le, min_def]

/-- C1 amended: when every built position contributes (its symbol exists and
both prices resolve), the aggregate gross return passed to the execution
model equals the sum over positions of the post-renormalization weight — the
original capped weight divided by the positive total of capped weights —
times `exit_price/entry_price - 1`. -/
theorem c1_amended (cfg : StrategyConfig) (env : PriceEnv) (signals : List Signal) (topN : ℕ)
    (tradeDate exitDate : PyDate) (entryP exitP : String → ℚ)
    (hs : ∀ p ∈ build cfg signals topN, env.symbolExists p.ticker = true ∧
      env.priceOnOrAfter p.ticker tradeDate = some (entryP p.ticker) ∧
      env.priceOnOrBefore p.ticker exitDate = some (exitP p.ticker))
    (hpos : 0 < ((cappedPositions cfg (signals.take topN)).map PortfolioPosition.weight).sum) :
    (grossAndWeight env (build cfg signals topN) tradeDate exitDate).1
      = ((cappedPositions cfg (signals.take topN)).map (fun p =>
          p.weight / ((cappedPositions cfg (signals.take topN)).map PortfolioPosition.weight).sum
            * (exitP p.ticker / entryP p.ticker - 1))).sum := by
  have hsel : signals.take topN ≠ [] := by
    intro hcon
    rw [hcon] at hpos
    simp [cappedPositions] at hpos
  have hselEmpty : (signals.take topN).isEmpty = false := by
    cases hc : (signals.take topN).isEmpty
    · rfl
    · exact absurd (List.isEmpty_iff.mp hc) hsel
  have hb : build cfg signals topN
      = (cappedPositions cfg (signals.take topN)).map (fun p =>
          { p with weight :=
              p.weight / ((cappedPositions cfg (signals.take topN)).map
                PortfolioPosition.weight).sum }) := by
    unfold build
    simp only [hselEmpty, Bool.false_eq_true, if_false, if_pos hpos]
  rw [grossAndWeight_contributing env tradeDate exitDate entryP exitP _ hs, hb, List.map_map]
  rfl

/-- C1 witness: the amended equation evaluated on the doubling-price scenario
of the counterexample. -/
theorem c1_witness :
    (grossAndWeight doublingPriceEnv (build defaultStrategyConfig twoSignals 15)
        ⟨2024, 11, 1⟩ ⟨2024, 11, 30⟩).1
      = ((cappedPositions defaultStrategyConfig (twoSignals.take 15)).map (fun p =>
          p.weight / ((cappedPositions defaultStrategyConfig (twoSignals.take 15)).map
              PortfolioPosition.weight).sum
            * ((fun t => if t == "A" then (200 : ℚ) else 100) p.ticker
                / (fun _ => (100 : ℚ)) p.ticker - 1))).sum :=
  c1_amended defaultStrategyConfig doublingPriceEnv twoSignals 15 ⟨2024, 11, 1⟩ ⟨2024, 11, 30⟩
    (fun _ => 100) (fun t => if t == "A" then 200 else 100)
    (by
      intro p hp
      refine ⟨rfl, rfl, ?_⟩
      show (if p.ticker == "A" then some (200 : ℚ) else some 100)
        = some (if p.ticker == "A" then (200 : ℚ) else 100)
      split <;> rfl)
    (by norm_num [cappedPositions, liquidity_cap, defaultStrategyConfig, twoSignals,
      List.take_of_length_le, min_def])

theorem backtestStep_flat (cfg : StrategyConfig) (pf : PyDate → List PortfolioPosition)
    (env : PriceEnv) (p : ℚ) (hp : p ≠ 0)
    (hsym : ∀ t, env.symbolExists t = true)
    (hfa : ∀ t d, env.priceOnOrAfter t d = some p)
    (hfb : ∀ t d, env.priceOnOrBefore t d = some p)
    (pr : PyDate × PyDate) (hne : pf pr.1 ≠ [])
    (hw : ((pf pr.1).map PortfolioPosition.weight).sum ≠ 0)
    (s : List (PyDate × ℚ) × ℚ) :
    backtestStep cfg pf env s pr
      = (s.1 ++ [(pr.2, s.2 * (1 - (cfg.transaction_cost_bps + cfg.slippage_bps) / 10000))],
         s.2 * (1 - (cfg.transaction_cost_bps + cfg.slippage_bps) / 10000)) := by
  have hgw := grossAndWeight_contributing env (next_trading_day pr.1) pr.2
    (fun _ => p) (fun _ => p) (pf pr.1)
    (fun q hq => ⟨hsym _, hfa _ _, hfb _ _⟩)
  have hzero : ((pf pr.1).map (fun q : PortfolioPosition =>
      q.weight * (p / p - 1))).sum = 0 := by
    simp [div_self hp]
  have hpr : portfolio_return cfg env (pf pr.1) (next_trading_day pr.1) pr.2
      = -((cfg.transaction_cost_bps + cfg.slippage_bps) / 10000) := by
    unfold portfolio_return
    rw [hgw]
    simp only []
    rw [if_neg hw, apply_costs, hzero]
    ring
  have hne2 : (pf pr.1).isEmpty = false := by
    cases hc : (pf pr.1).isEmpty
    · rfl
    · exact absurd (List.isEmpty_iff.mp hc) hne
  have hcap : s.2 * (1 + -((cfg.transaction_cost_bps + cfg.slippage_bps) / 10000))
      = s.2 * (1 - (cfg.transaction_cost_bps + cfg.slippage_bps) / 10000) := by
    ring
  unfold backtestStep
  simp only [hne2, Bool.false_eq_true, if_false, hpr, hcap]

theorem foldl_backtestStep_geom (cfg : StrategyConfig)
    (pf : PyDate → List PortfolioPosition) (env : PriceEnv) (f : ℚ) :
    ∀ (periods : List (PyDate × PyDate)) (pts : List (PyDate × ℚ)) (cap : ℚ),
      (∀ pr ∈ periods, ∀ s : List (PyDate × ℚ) × ℚ,
        backtestStep cfg pf env s pr = (s.1 ++ [(pr.2, s.2 * f)], s.2 * f)) →
      periods.foldl (backtestStep cfg pf env) (pts, cap)
        = (pts ++ geomTrail f cap periods, cap * f ^ periods.length)
  | [], pts, cap, _ => by simp [geomTrail]
  | pr :: rest, pts, cap, h => by
    rw [List.foldl_cons, h pr (List.mem_cons_self pr rest) (pts, cap),
      foldl_backtestStep_geom cfg pf env f rest _ _
        (fun q hq => h q (List.mem_cons_of_mem pr hq))]
    simp only [geomTrail, List.append_assoc, List.singleton_append, List.length_cons]
    rw [Prod.mk.injEq]
    exact ⟨rfl, by ring⟩

theorem geomTrail_chain_mul (f : ℚ) :
    ∀ (periods : List (PyDate × PyDate)) (d : PyDate) (cap : ℚ),
      List.Chain' (fun a b : PyDate × ℚ => b.2 = a.2 * f)
        ((d, cap) :: geomTrail f cap periods)
  | [], d, cap => by simp [geomTrail]
  | pr :: rest, d, cap => by
    rw [geomTrail, List.chain'_cons]
    exact ⟨rfl, geomTrail_chain_mul f rest pr.2 (cap * f)⟩

theorem geomTrail_chain_lt (f : ℚ) (hf0 : 0 < f) (hf1 : f < 1) :
    ∀ (periods : List (PyDate × PyDate)) (d : PyDate) (cap : ℚ), 0 < cap →
      List.Chain' (fun a b : PyDate × ℚ => b.2 < a.2)
        ((d, cap) :: geomTrail f cap periods)
  | [], d, cap, _ => by simp [geomTrail]
  | pr :: rest, d, cap, hcap => by
    rw [geomTrail, List.chain'_cons]
    exact ⟨mul_lt_of_lt_one_right hcap hf1,
      geomTrail_chain_lt f hf0 hf1 rest pr.2 (cap * f) (mul_pos hcap hf0)⟩

/-- C5 counterexample: a flat backtest (all prices 100) with both cost
settings at zero, one non-empty full-weight portfolio per period, and prices
available for every position.  The per-period net-return formula still holds
(each point is the previous one times `1 - 0/10000`), but the equity curve is
constant, so the strictly-decreasing conjunct of the claim fails. -/
theorem c5_counterexample :
    (backtestLoop zeroCostConfig singleStockPortfolio flatPriceEnv
        [⟨2024, 10, 31⟩, ⟨2024, 11, 30⟩] ⟨2024, 10, 31⟩).Chain'
      (fun a b => b.2 = a.2 * (1 - (zeroCostConfig.transaction_cost_bps
          + zeroCostConfig.slippage_bps) / 10000)) ∧
      ¬ (backtestLoop zeroCostConfig singleStockPortfolio flatPriceEnv
          [⟨2024, 10, 31⟩, ⟨2024, 11, 30⟩] ⟨2024, 10, 31⟩).Chain'
        (fun a b => b.2 < a.2) := by
  have hcurve : backtestLoop zeroCostConfig singleStockPortfolio flatPriceEnv
      [⟨2024, 10, 31⟩, ⟨2024, 11, 30⟩] ⟨2024, 10, 31⟩
      = [(⟨2024, 10, 31⟩, 1), (⟨2024, 11, 30⟩, 1)] := by
    norm_num [backtestLoop, adjacentPairs, backtestStep, portfolio_return, grossAndWeight,
      positionStep, apply_costs, zeroCostConfig, defaultStrategyConfig, singleStockPortfolio,
      flatPriceEnv]
  rw [hcurve]
  norm_num [List.chain'_cons, zeroCostConfig, defaultStrategyConfig]

/-- C5 amended: over any schedule, for a flat price series (every observed
price is the same nonzero value), with a non-empty portfolio of nonzero total
weight and available prices in every period, every equity point is the
previous one times `1 - (transaction_cost_bps + slippage_bps)/10000` — i.e.
the net return of every period is exactly `-(tc + slippage)/10000` — and the
equity curve is strictly decreasing provided that the per-period cost
fraction lies strictly between 0 and 1. -/
theorem c5_amended (cfg : StrategyConfig) (pf : PyDate → List PortfolioPosition)
    (env : PriceEnv) (schedule : List PyDate) (startDate : PyDate) (p : ℚ) (hp : p ≠ 0)
    (hsym : ∀ t, env.symbolExists t = true)
    (hfa : ∀ t d, env.priceOnOrAfter t d = some p)
    (hfb : ∀ t d, env.priceOnOrBefore t d = some p)
    (hne : ∀ pr ∈ adjacentPairs schedule, pf pr.1 ≠ [])
    (hw : ∀ pr ∈ adjacentPairs schedule, ((pf pr.1).map PortfolioPosition.weight).sum ≠ 0)
    (hc0 : 0 < (cfg.transaction_cost_bps + cfg.slippage_bps) / 10000)
    (hc1 : (cfg.transaction_cost_bps + cfg.slippage_bps) / 10000 < 1) :
    (backtestLoop cfg pf env schedule startDate).Chain' (fun a b =>
        b.2 = a.2 * (1 - (cfg.transaction_cost_bps + cfg.slippage_bps) / 10000)) ∧
      (backtestLoop cfg pf env schedule startDate).Chain' (fun a b => b.2 < a.2) := by
  have hloop : backtestLoop cfg pf env schedule startDate
      = (startDate, 1) :: geomTrail
          (1 - (cfg.transaction_cost_bps + cfg.slippage_bps) / 10000) 1
          (adjacentPairs schedule) := by
    unfold backtestLoop
    rw [foldl_backtestStep_geom cfg pf env
      (1 - (cfg.transaction_cost_bps + cfg.slippage_bps) / 10000)
      (adjacentPairs schedule) [(startDate, 1)] 1
      (fun pr hpr s => backtestStep_flat cfg pf env p hp hsym hfa hfb pr
        (hne pr hpr) (hw pr hpr) s)]
    rfl
  rw [hloop]
  constructor
  · exact geomTrail_chain_mul _ (adjacentPairs schedule) startDate 1
  · exact geomTrail_chain_lt _ (by linarith) (by linarith) (adjacentPairs schedule)
      startDate 1 (by norm_num)

/-- C5 witness: under the default costs (20 + 5 bps) a three-date flat
backtest compounds each point by `1 - 25/10000` and decreases strictly. -/
theorem c5_witness :
    (backtestLoop defaultStrategyConfig singleStockPortfolio flatPriceEnv
        [⟨2024, 10, 31⟩, ⟨2024, 11, 30⟩, ⟨2024, 12, 31⟩] ⟨2024, 10, 31⟩).Chain'
      (fun a b => b.2 = a.2 * (1 - (defaultStrategyConfig.transaction_cost_bps
          + defaultStrategyConfig.slippage_bps) / 10000)) ∧
      (backtestLoop defaultStrategyConfig singleStockPortfolio flatPriceEnv
          [⟨2024, 10, 31⟩, ⟨2024, 11, 30⟩, ⟨2024, 12, 31⟩] ⟨2024, 10, 31⟩).Chain'
        (fun a b => b.2 < a.2) :=
  c5_amended defaultStrategyConfig singleStockPortfolio flatPriceEnv
    [⟨2024, 10, 31⟩, ⟨2024, 11, 30⟩, ⟨2024, 12, 31⟩] ⟨2024, 10, 31⟩ 100
    (by norm_num) (fun t => rfl) (fun t d => rfl) (fun t d => rfl)
    (by intro pr hpr; simp [singleStockPortfolio])
    (by intro pr hpr; norm_num [singleStockPortfolio])
    (by norm_num [defaultStrategyConfig]) (by norm_num [defaultStrategyConfig])

/-- C6: for every configuration, database surface, run context and signal
store, calling `build_signals` a second time for the run's `(run_id,
as_of_date)` cache key returns exactly the first call's signal sequence and
leaves the signal store exactly as the first call left it (no additional
`SignalRecord` rows).  The hypothesis is the `Symbol`-table consistency of
the database: looking up the id of a computed signal's ticker and joining
back yields the same ticker. -/
theorem c6_build_signals_idempotent (cfg : StrategyConfig) (env : SigEnv) (run : RunContext)
    (store : List SignalRecord)
    (hinv : ∀ s ∈ computeSignals cfg env run.as_of_date,
      env.tickerOf (env.idOf s.ticker) = s.ticker) :
    build_signals cfg env run run.as_of_date
        (build_signals cfg env run run.as_of_date store).2
      = build_signals cfg env run run.as_of_date store := by
  by_cases hex : (store.filter (matchesKey run run.as_of_date)).isEmpty
  · have hfirst : build_signals cfg env run run.as_of_date store
        = (sortByScoreDesc (computeSignals cfg env run.as_of_date),
           persist_signals env run (computeSignals cfg env run.as_of_date) store) := by
      unfold build_signals
      simp only [hex, if_true]
    have hfil : store.filter (matchesKey run run.as_of_date) = [] := List.isEmpty_iff.mp hex
    have hkeyrec : ∀ s : Signal, matchesKey run run.as_of_date
        { run_id := run.run_id, symbol_id := env.idOf s.ticker,
          as_of_date := run.as_of_date, score := s.score, liquidity := s.liquidity } = true := by
      intro s
      simp [matchesKey]
    have hfil2 : (persist_signals env run (computeSignals cfg env run.as_of_date) store).filter
        (matchesKey run run.as_of_date)
        = (computeSignals cfg env run.as_of_date).map (fun s =>
            { run_id := run.run_id, symbol_id := env.idOf s.ticker,
              as_of_date := run.as_of_date, score := s.score, liquidity := s.liquidity }) := by
      unfold persist_signals
      rw [List.filter_append, hfil, List.nil_append, List.filter_eq_self.mpr]
      intro r hr
      rcases List.mem_map.mp hr with ⟨s, hs, hrs⟩
      rw [← hrs]
      exact hkeyrec s
    rw [hfirst]
    by_cases hsig : computeSignals cfg env run.as_of_date = []
    · unfold build_signals
      rw [hsig] at hfil2 ⊢
      simp only [List.map_nil] at hfil2
      simp only [hfil2, List.isEmpty_nil, if_true]
      unfold persist_signals
      simp [hsig]
    · have hrecne : (computeSignals cfg env run.as_of_date).map (fun s =>
          ({ run_id := run.run_id, symbol_id := env.idOf s.ticker,
             as_of_date := run.as_of_date, score := s.score,
             liquidity := s.liquidity } : SignalRecord)) ≠ [] := by
        simp only [Ne, List.map_eq_nil_iff]
        exact hsig
      have hrecEmpty : ((persist_signals env run (computeSignals cfg env run.as_of_date)
          store).filter (matchesKey run run.as_of_date)).isEmpty = false := by
        rw [hfil2]
        cases hc : ((computeSignals cfg env run.as_of_date).map _).isEmpty
        · rfl
        · exact absurd (List.isEmpty_iff.mp hc) hrecne
      conv =>
        lhs
        unfold build_signals
      simp only [hrecEmpty, Bool.false_eq_true, if_false]
      rw [hfil2, List.map_map]
      have hback : (computeSignals cfg env run.as_of_date).map
          ((recordSignal env) ∘ (fun s =>
            ({ run_id := run.run_id, symbol_id := env.idOf s.ticker,
               as_of_date := run.as_of_date, score := s.score,
               liquidity := s.liquidity } : SignalRecord)))
          = computeSignals cfg env run.as_of_date := by
        rw [List.map_congr_left, List.map_id]
        intro s hs
        show recordSignal env _ = s
        unfold recordSignal
        simp only []
        rw [hinv s hs]
      rw [hback]
  · have hfirst : build_signals cfg env run run.as_of_date store
        = (sortByScoreDesc ((store.filter (matchesKey run run.as_of_date)).map
            (recordSignal env)), store) := by
      unfold build_signals
      simp only [hex, Bool.false_eq_true, if_false]
    rw [hfirst]
    exact hfirst

/-- C6 witness: one active, liquid symbol with all factor values present;
starting from an empty store, the second call reproduces the first exactly. -/
theorem c6_witness :
    build_signals defaultStrategyConfig oneSymbolSigEnv sampleRun sampleRun.as_of_date
        (build_signals defaultStrategyConfig oneSymbolSigEnv sampleRun sampleRun.as_of_date []).2
      = build_signals defaultStrategyConfig oneSymbolSigEnv sampleRun sampleRun.as_of_date [] := by
  have hb1 : ("momentum_12_1" == "momentum_6_1") = false := by decide
  have hb2 : ("momentum_12_1" == "realized_vol") = false := by decide
  have hb3 : ("momentum_6_1" == "realized_vol") = false := by decide
  have hcs : computeSignals defaultStrategyConfig oneSymbolSigEnv sampleRun.as_of_date
      = [⟨"AAA", 3/5, 30000000⟩] := by
    norm_num [hb1, hb2, hb3, computeSignals, computeSignalsGo, passes_liquidity, collectFactors,
      compose_score, lookupFactor, List.find?, oneSymbolSigEnv, defaultStrategyConfig,
      defaultFactorWeights, sampleRun]
  refine c6_build_signals_idempotent defaultStrategyConfig oneSymbolSigEnv sampleRun [] ?_
  intro s hs
  rw [hcs] at hs
  simp only [List.mem_singleton] at hs
  rw [hs]
  rfl
